import Mathlib

/-!
Shallow embedding of the pushdown-automaton engine of `ts-experiments`
(the documented `PushdownAutomaton` / `Stack` variant).

The TypeScript `Stack<T>` wraps a plain array `#stack`; `push` appends at
the end of the array, `pop`/`head` work on the *last* array element.  We
model the array as a Lean `List` in the same order: index 0 of the array is
the head of the list, and the stack's top is the last list element.

JavaScript `x ?? d` yields `d` whenever `x` is `null` or `undefined`.  The
generic element type `T` may itself contain such values, so `Stack.action`
takes a predicate `nullish : T → Bool` marking which inhabitants of `T`
model the JavaScript values `null`/`undefined`; a `Stack.pop` that returns
"no element" (the array was empty) is modelled by `Option.none` outside `T`.
-/

namespace TsPda

/-- TS `Stack<T>` (class `Stack`): the private array `#stack`, top at the end. -/
structure Stack (T : Type) where
  stack : List T
deriving Repr, DecidableEq

namespace Stack

/-- TS `Stack.push(item)`: `this.#stack.push(item)` appends at the end. -/
def push (s : Stack T) (item : T) : Stack T :=
  ⟨s.stack ++ [item]⟩

/-- TS `Stack.pop()`: `Array.prototype.pop` removes and returns the last
element, `undefined` (here `none`) if the array is empty. -/
def pop (s : Stack T) : Option T × Stack T :=
  (s.stack.getLast?, ⟨s.stack.dropLast⟩)

/-- TS `Stack.head()`: `stack[stack.length - 1]`, `undefined` if empty. -/
def head (s : Stack T) : Option T :=
  s.stack.getLast?

/-- TS `Stack.delete()`: `this.#stack.pop()` with the result discarded. -/
def delete (s : Stack T) : Stack T :=
  ⟨s.stack.dropLast⟩

/-- TS `Stack.copy()`: `Stack.fromArray([...this.#stack])`.  In the pure
model a structural copy is the same value; the aliasing content of `copy`
is modelled separately in the store-passing model below. -/
def copy (s : Stack T) : Stack T :=
  ⟨s.stack⟩

/-- TS `Stack.clear()`: `this.#stack = []`. -/
def clear (_s : Stack T) : Stack T :=
  ⟨[]⟩

/-- TS `Stack.appendArray(array)`: `this.#stack.push(...array)`. -/
def appendArray (s : Stack T) (array : List T) : Stack T :=
  ⟨s.stack ++ array⟩

/-- TS `Stack.fromArray(array)`: `stack.#stack = array` (the array is used
as-is; its first element sits at the bottom, its last element is the top). -/
def fromArray (array : List T) : Stack T :=
  ⟨array⟩

end Stack

/-- TS `StackAction<T>`: the discriminated union
`DeleteAction | PushAction<T> | PopAction<T> | IgnoreAction | ClearAction`. -/
inductive StackAction (T : Type) where
  | delete : StackAction T
  | push (item : T) : StackAction T
  | pop (default : T) : StackAction T
  | ignore : StackAction T
  | clear : StackAction T
deriving Repr, DecidableEq

/-- TS `Stack.action(action)`.  Returns the popped value (for `pop`
actions, `none` otherwise) together with the updated stack.  The `pop`
branch is `this.pop() ?? action.default`: the default is substituted both
when the array is empty and when the popped element itself is a
`null`/`undefined` value of `T` (as told by `nullish`). -/
def Stack.action (nullish : T → Bool) (s : Stack T) (a : StackAction T) :
    Option T × Stack T :=
  match a with
  | .delete => (none, s.delete)
  | .push item => (none, s.push item)
  | .pop default =>
      let r := s.pop
      (some (match r.1 with
             | none => default
             | some v => if nullish v then default else v), r.2)
  | .ignore => (none, s)
  | .clear => (none, s.clear)

/-- The automaton's result values: the TS literal type `"accept" | "reject"`. -/
inductive Result where
  | accept : Result
  | reject : Result
deriving Repr, DecidableEq

/-- TS `ContinueAction.stackAction`: the subset
`DeleteAction | PushAction<StackAlphabet> | IgnoreAction` admitted by the
type of `continue` actions (no `pop`, no `clear`). -/
inductive ContinueStackAction (T : Type) where
  | delete : ContinueStackAction T
  | push (item : T) : ContinueStackAction T
  | ignore : ContinueStackAction T
deriving Repr, DecidableEq

/-- The inclusion of continue-step stack actions into `StackAction`. -/
def ContinueStackAction.toStackAction : ContinueStackAction T → StackAction T
  | .delete => .delete
  | .push item => .push item
  | .ignore => .ignore

/-- TS `PushdownAutomatonAction<StackAlphabet,StateAlphabet>`:
`ContinueAction | ResolveAction`. -/
inductive PushdownAutomatonAction (Γ Q : Type) where
  | continue (stackAction : ContinueStackAction Γ) (state : Q) :
      PushdownAutomatonAction Γ Q
  | resolve (result : Result) : PushdownAutomatonAction Γ Q

/-- TS `InputAction<T,C>`: `PopInputAction | IgnoreInputAction`.  The
`pop` continuation receives `T | undefined`, i.e. `Option T`. -/
inductive InputAction (T C : Type) where
  | pop (cont : Option T → C) : InputAction T C
  | ignore (cont : C) : InputAction T C

/-- TS `TransitionFunction<StackAlphabet,StateAlphabet,InputAlphabet>`. -/
def TransitionFunction (Γ Q A : Type) : Type :=
  Q → Option Γ → InputAction A (PushdownAutomatonAction Γ Q)

/-- The record stored in the private field `#initialState`. -/
structure InitialState (Γ Q : Type) where
  stackSymbol : Γ
  state : Q

/-- TS `class PushdownAutomaton`: the private fields. -/
structure PushdownAutomaton (Γ Q A : Type) where
  initialState : InitialState Γ Q
  stack : Stack Γ
  state : Q
  transition : TransitionFunction Γ Q A
  result : Option Result
  input : Stack A

namespace PushdownAutomaton

/-- The TS constructor: pushes `initialStackSymbol` onto a fresh control
stack, records the initial pair, leaves the result `null` and the input
stack empty. -/
def construct (initialState : Q) (initialStackSymbol : Γ)
    (transition : TransitionFunction Γ Q A) : PushdownAutomaton Γ Q A :=
  { stack := Stack.push ⟨[]⟩ initialStackSymbol
    state := initialState
    transition := transition
    result := none
    initialState := ⟨initialStackSymbol, initialState⟩
    input := ⟨[]⟩ }

/-- TS `input(input)`: `this.#input = Stack.fromArray(input)`.  (Named
`setInput` here because the structure field is already called `input`.) -/
def setInput (pda : PushdownAutomaton Γ Q A) (input : List A) :
    PushdownAutomaton Γ Q A :=
  { pda with input := Stack.fromArray input }

/-- The first half of TS `advance()`: read the top of the control stack,
query the transition function once with `(state, stackSymbol)`, and if the
returned input action is a `pop`, consume one input symbol and feed it to
the continuation.  Yields the updated input stack paired with `action2`. -/
def advanceOutcome (pda : PushdownAutomaton Γ Q A) :
    Stack A × PushdownAutomatonAction Γ Q :=
  let stackSymbol := pda.stack.head
  let action1 := pda.transition pda.state stackSymbol
  match action1 with
  | .pop cont =>
      let r := pda.input.pop
      (r.2, cont r.1)
  | .ignore c => (pda.input, c)

/-- The second half of TS `advance()`: a `resolve` action records the
result and exits; otherwise the state is replaced and the stack action is
applied via `Stack.action`.  (The stack action of a continue step is never
a `pop`, so the `nullish` argument of `Stack.action` is irrelevant;
`fun _ => false` is passed.) -/
def advance (pda : PushdownAutomaton Γ Q A) : PushdownAutomaton Γ Q A :=
  let r := advanceOutcome pda
  match r.2 with
  | .resolve res => { pda with input := r.1, result := some res }
  | .continue stackAction state =>
      { pda with
          input := r.1
          state := state
          stack := (Stack.action (fun _ => false) pda.stack
                      stackAction.toStackAction).2 }

/-- TS `reset()`: fresh control stack holding the recorded initial stack
symbol, initial state, `null` result, empty input stack.  The transition
function and the `#initialState` record are untouched. -/
def reset (pda : PushdownAutomaton Γ Q A) : PushdownAutomaton Γ Q A :=
  { pda with
      stack := Stack.push ⟨[]⟩ pda.initialState.stackSymbol
      state := pda.initialState.state
      result := none
      input := ⟨[]⟩ }

/-- TS `overrideState(state)`. -/
def overrideState (pda : PushdownAutomaton Γ Q A) (state : Q) :
    PushdownAutomaton Γ Q A :=
  { pda with state := state }

/-- TS `overrideTransitionFunction(transition)`. -/
def overrideTransitionFunction (pda : PushdownAutomaton Γ Q A)
    (transition : TransitionFunction Γ Q A) : PushdownAutomaton Γ Q A :=
  { pda with transition := transition }

/-- TS `replaceStack(stack)`. -/
def replaceStack (pda : PushdownAutomaton Γ Q A) (stack : Stack Γ) :
    PushdownAutomaton Γ Q A :=
  { pda with stack := stack }

/-- TS `replaceInput(input)`. -/
def replaceInput (pda : PushdownAutomaton Γ Q A) (input : Stack A) :
    PushdownAutomaton Γ Q A :=
  { pda with input := input }

/-- TS `runStackAction(action)`: `this.#stack.action(action)`, return value
discarded.  The stack mutation performed by `Stack.action` does not depend
on `nullish`, so `fun _ => false` is passed. -/
def runStackAction (pda : PushdownAutomaton Γ Q A) (a : StackAction Γ) :
    PushdownAutomaton Γ Q A :=
  { pda with stack := (Stack.action (fun _ => false) pda.stack a).2 }

/-- TS `runInputAction(action)`: `this.#input.action(action)`. -/
def runInputAction (pda : PushdownAutomaton Γ Q A) (a : StackAction A) :
    PushdownAutomaton Γ Q A :=
  { pda with input := (Stack.action (fun _ => false) pda.input a).2 }

/-- TS `appendInputArray(input)`. -/
def appendInputArray (pda : PushdownAutomaton Γ Q A) (input : List A) :
    PushdownAutomaton Γ Q A :=
  { pda with input := pda.input.appendArray input }

/-- `n`-fold iteration of `advance`, i.e. `n` consecutive `advance()` calls. -/
def advanceIter (pda : PushdownAutomaton Γ Q A) : Nat → PushdownAutomaton Γ Q A
  | 0 => pda
  | n + 1 => advanceIter (advance pda) n

/-- The stack actions applied to the control stack by one `advance()` call:
one action for a continue step, none for a resolving step. -/
def stepActs (pda : PushdownAutomaton Γ Q A) : List (ContinueStackAction Γ) :=
  match (advanceOutcome pda).2 with
  | .continue sa _ => [sa]
  | .resolve _ => []

/-- The stack actions applied to the control stack during the first `n`
`advance()` calls, in order. -/
def appliedActions (pda : PushdownAutomaton Γ Q A) : Nat → List (ContinueStackAction Γ)
  | 0 => []
  | n + 1 => stepActs pda ++ appliedActions (advance pda) n

/-- Number of `Push` actions in a list of applied stack actions. -/
def countPush : List (ContinueStackAction Γ) → Nat
  | [] => 0
  | .push _ :: rest => countPush rest + 1
  | _ :: rest => countPush rest

/-- Number of `Delete` actions in a list of applied stack actions. -/
def countDelete : List (ContinueStackAction Γ) → Nat
  | [] => 0
  | .delete :: rest => countDelete rest + 1
  | _ :: rest => countDelete rest

end PushdownAutomaton

/-- The automaton's public operations, used to quantify over "every
sequence of prior operations" in reset/invariant claims. -/
inductive Op (Γ Q A : Type) where
  | advance : Op Γ Q A
  | setInput (input : List A) : Op Γ Q A
  | reset : Op Γ Q A
  | overrideState (state : Q) : Op Γ Q A
  | overrideTransitionFunction (t : TransitionFunction Γ Q A) : Op Γ Q A
  | replaceStack (s : Stack Γ) : Op Γ Q A
  | replaceInput (s : Stack A) : Op Γ Q A
  | runStackAction (a : StackAction Γ) : Op Γ Q A
  | runInputAction (a : StackAction A) : Op Γ Q A
  | appendInputArray (input : List A) : Op Γ Q A

/-- Apply one public operation to the automaton. -/
def applyOp (pda : PushdownAutomaton Γ Q A) : Op Γ Q A → PushdownAutomaton Γ Q A
  | .advance => pda.advance
  | .setInput xs => pda.setInput xs
  | .reset => pda.reset
  | .overrideState s => pda.overrideState s
  | .overrideTransitionFunction t => pda.overrideTransitionFunction t
  | .replaceStack s => pda.replaceStack s
  | .replaceInput s => pda.replaceInput s
  | .runStackAction a => pda.runStackAction a
  | .runInputAction a => pda.runInputAction a
  | .appendInputArray xs => pda.appendInputArray xs

/-- Apply a sequence of public operations, first element first. -/
def applyOps (pda : PushdownAutomaton Γ Q A) : List (Op Γ Q A) → PushdownAutomaton Γ Q A
  | [] => pda
  | op :: rest => applyOps (applyOp pda op) rest

end TsPda

/-!
Store-passing model of the aliasing behaviour of `Stack.fromArray` and
`Stack.copy`.  The pure embedding above identifies a stack with its
contents and so cannot express sharing; here JavaScript arrays live in a
store addressed by natural-number references, a `Stack` object is the
reference to its `#stack` array, and caller-side mutation of an array is a
`write` to its cell.  `fromArray` stores the caller's array reference
as-is (`stack.#stack = array`, no copy); `copy` allocates a fresh array
with the same contents (`[...this.#stack]`).
-/

namespace TsPdaStore

/-- The store of JavaScript arrays: cell `r` holds the array `cells[r]`. -/
structure Store (T : Type) where
  cells : List (List T)
deriving Repr, DecidableEq

namespace Store

/-- Contents of the array at reference `r` (`[]` for a dangling reference). -/
def read (st : Store T) (r : Nat) : List T :=
  st.cells.getD r []

/-- Overwrite the array at reference `r` (no-op on a dangling reference).
Caller-side mutations such as `arr.push(x)` are writes of the extended
contents. -/
def write (st : Store T) (r : Nat) (xs : List T) : Store T :=
  ⟨st.cells.set r xs⟩

/-- Allocate a fresh array holding `xs`; returns its reference. -/
def alloc (st : Store T) (xs : List T) : Nat × Store T :=
  (st.cells.length, ⟨st.cells ++ [xs]⟩)

end Store

/-- A `Stack` object in the store model: the reference of its `#stack` array. -/
structure StackRef where
  ref : Nat
deriving Repr, DecidableEq

/-- TS `Stack.fromArray(array)` in the store model: the new stack's
`#stack` *is* the argument array (`stack.#stack = array`), so the stack
holds the caller's reference itself. -/
def fromArrayRef (arrayRef : Nat) : StackRef :=
  ⟨arrayRef⟩

/-- TS `Stack.copy()` in the store model:
`Stack.fromArray([...this.#stack])` — the spread allocates a fresh array
with the same contents, and the copy wraps the fresh reference. -/
def copyRef (st : Store T) (s : StackRef) : StackRef × Store T :=
  let r := st.alloc (st.read s.ref)
  (fromArrayRef r.1, r.2)

/-- The stack-holding fields of a `PushdownAutomaton` in the store model:
the references of the control stack's and the input stack's arrays. -/
structure PdaRefs where
  stackRef : Nat
  inputRef : Nat
deriving Repr, DecidableEq

/-- TS `input(input)` in the store model:
`this.#input = Stack.fromArray(input)` makes the automaton's input stack
wrap the caller's array reference. -/
def inputRefOp (p : PdaRefs) (arrayRef : Nat) : PdaRefs :=
  { p with inputRef := (fromArrayRef arrayRef).ref }

/-- TS `copyStack()` in the store model: `this.#stack.copy()`. -/
def copyStackRef (st : Store T) (p : PdaRefs) : StackRef × Store T :=
  copyRef st ⟨p.stackRef⟩

/-- TS `copyRemainingInput()` in the store model: `this.#input.copy()`. -/
def copyRemainingInputRef (st : Store T) (p : PdaRefs) : StackRef × Store T :=
  copyRef st ⟨p.inputRef⟩

end TsPdaStore

namespace TsPda

open PushdownAutomaton

/-- The continuation of `exT1`: resolves `accept` exactly when handed
`some 0`, i.e. exactly when handed the *first* element of the input array
`[0, 1]` used below. -/
def contFirstAccept : Option Nat → PushdownAutomatonAction Nat Nat :=
  fun i => .resolve (if i = some 0 then .accept else .reject)

/-- A transition function that always consumes one input symbol and
resolves through `contFirstAccept`. -/
def exT1 : TransitionFunction Nat Nat Nat :=
  fun _ _ => .pop contFirstAccept

/-- A transition function that always consumes one input symbol and
resolves `accept` exactly when handed `some 1`. -/
def exT7 : TransitionFunction Nat Nat Nat :=
  fun _ _ => .pop (fun i => .resolve (if i = some 1 then .accept else .reject))

/-- A transition function driving the action sequence
delete, delete, push 9 (states 0 → 1 → 2 → 3), never touching the input. -/
def exT8 : TransitionFunction Nat Nat Nat :=
  fun q _ => .ignore (match q with
    | 0 => .continue .delete 1
    | 1 => .continue .delete 2
    | _ => .continue (.push 9) 3)

/-- A transition function driving the action sequence push 5, delete
(states 0 → 1 → 2), never touching the input. -/
def exT8w : TransitionFunction Nat Nat Nat :=
  fun q _ => .ignore (if q = 0 then .continue (.push 5) 1 else .continue .delete 2)

/-- A transition function that resolves `accept` immediately without
touching the input. -/
def exT4 : TransitionFunction Nat Nat Nat :=
  fun _ _ => .ignore (.resolve .accept)

/-- The continuation of `exT10`: always resolves `reject`. -/
def contReject : Option Nat → PushdownAutomatonAction Nat Nat :=
  fun _ => .resolve .reject

/-- A transition function that always consumes one input symbol and then
resolves `reject`. -/
def exT10 : TransitionFunction Nat Nat Nat :=
  fun _ _ => .pop contReject

end TsPda

namespace TsPdaStore

lemma getD_append_left {α : Type} (l l' : List α) (n : Nat) (d : α)
    (h : n < l.length) : (l ++ l').getD n d = l.getD n d := by
  induction l generalizing n with
  | nil => simp at h
  | cons x xs ih =>
      cases n with
      | zero => rfl
      | succ m =>
          simp only [List.cons_append, List.getD_cons_succ]
          exact ih m (by simpa using h)

lemma getD_append_length {α : Type} (l : List α) (x : α) (d : α) :
    (l ++ [x]).getD l.length d = x := by
  induction l with
  | nil => rfl
  | cons y ys ih => simpa using ih

lemma getD_set_self {α : Type} (l : List α) (n : Nat) (x d : α)
    (h : n < l.length) : (l.set n x).getD n d = x := by
  induction l generalizing n with
  | nil => simp at h
  | cons y ys ih =>
      cases n with
      | zero => rfl
      | succ m =>
          simp only [List.set_cons_succ, List.getD_cons_succ]
          exact ih m (by simpa using h)

lemma getD_set_other {α : Type} (l : List α) (m n : Nat) (x d : α)
    (h : m ≠ n) : (l.set m x).getD n d = l.getD n d := by
  induction l generalizing m n with
  | nil => rfl
  | cons y ys ih =>
      cases m with
      | zero =>
          cases n with
          | zero => exact absurd rfl h
          | succ k => rfl
      | succ j =>
          cases n with
          | zero => rfl
          | succ k =>
              simp only [List.set_cons_succ, List.getD_cons_succ]
              exact ih j k (fun hc => h (by rw [hc]))

end TsPdaStore

namespace TsPda

open PushdownAutomaton

lemma advance_initialState (pda : PushdownAutomaton Γ Q A) :
    (advance pda).initialState = pda.initialState := by
  unfold advance
  rcases h : (advanceOutcome pda).2 with sa | r <;> simp [h]

lemma advance_transition (pda : PushdownAutomaton Γ Q A) :
    (advance pda).transition = pda.transition := by
  unfold advance
  rcases h : (advanceOutcome pda).2 with sa | r <;> simp [h]

lemma applyOp_initialState (pda : PushdownAutomaton Γ Q A) (op : Op Γ Q A) :
    (applyOp pda op).initialState = pda.initialState := by
  cases op <;>
    simp [applyOp, setInput, reset, overrideState, overrideTransitionFunction,
      replaceStack, replaceInput, runStackAction, runInputAction,
      appendInputArray, advance_initialState]

lemma applyOps_initialState (pda : PushdownAutomaton Γ Q A)
    (ops : List (Op Γ Q A)) :
    (applyOps pda ops).initialState = pda.initialState := by
  induction ops generalizing pda with
  | nil => rfl
  | cons op rest ih => simpa [applyOps, applyOp_initialState] using ih (applyOp pda op)

lemma advance_of_resolve (pda : PushdownAutomaton Γ Q A) (r : Result)
    (h : (advanceOutcome pda).2 = .resolve r) :
    advance pda = { pda with input := (advanceOutcome pda).1, result := some r } := by
  unfold advance
  simp [h]

lemma advance_of_continue (pda : PushdownAutomaton Γ Q A)
    (sa : ContinueStackAction Γ) (st : Q)
    (h : (advanceOutcome pda).2 = .continue sa st) :
    advance pda =
      { pda with
          input := (advanceOutcome pda).1
          state := st
          stack := (Stack.action (fun _ => false) pda.stack sa.toStackAction).2 } := by
  unfold advance
  simp [h]

lemma advanceIter_succ (pda : PushdownAutomaton Γ Q A) (n : Nat) :
    advanceIter pda (n + 1) = advance (advanceIter pda n) := by
  induction n generalizing pda with
  | zero => rfl
  | succ m ih => exact ih (advance pda)

lemma appliedActions_succ (pda : PushdownAutomaton Γ Q A) (n : Nat) :
    appliedActions pda (n + 1) =
      appliedActions pda n ++ stepActs (advanceIter pda n) := by
  induction n generalizing pda with
  | zero => simp [appliedActions, advanceIter]
  | succ m ih =>
      show stepActs pda ++ appliedActions (advance pda) (m + 1) = _
      rw [ih (advance pda)]
      simp [appliedActions, advanceIter, List.append_assoc]

lemma countPush_append (l l' : List (ContinueStackAction Γ)) :
    countPush (l ++ l') = countPush l + countPush l' := by
  induction l with
  | nil => simp [countPush]
  | cons a rest ih => cases a <;> simp [countPush, ih] <;> omega

lemma countDelete_append (l l' : List (ContinueStackAction Γ)) :
    countDelete (l ++ l') = countDelete l + countDelete l' := by
  induction l with
  | nil => simp [countDelete]
  | cons a rest ih => cases a <;> simp [countDelete, ih] <;> omega

/-- Claim C1 counterexample: construct with `exT1` (whose continuation
resolves `accept` exactly when handed `some 0`) and call `setInput [0, 1]`.
The input queue holds exactly `[0, 1]`, but the first pop step hands the
continuation `some 1` — the *last* element of the array, not the first —
so the run resolves `reject` instead of `accept`.  (`Stack.fromArray`
keeps the array's order, and `pop` removes the last array element.) -/
theorem c1_counterexample :
    ((construct 0 0 exT1).setInput [0, 1]).input.stack = [0, 1] ∧
    (((construct 0 0 exT1).setInput [0, 1]).input.pop).1 = some 1 ∧
    (advance ((construct 0 0 exT1).setInput [0, 1])).result = some Result.reject ∧
    some Result.reject ≠ some Result.accept := by
  decide

/-- Claim C1 (amended): after `setInput xs` the input queue contains
exactly the symbols of `xs`, and a step whose transition result is a pop
input decision, taken while the input queue still holds `xs`, passes the
*last* element of `xs` to the continuation (the input array is used as a
stack, so symbols are consumed last-element-first). -/
theorem c1_amended_thm (pda₀ : PushdownAutomaton Γ Q A) (xs : List A) :
    (pda₀.setInput xs).input.stack = xs ∧
    (∀ (pda : PushdownAutomaton Γ Q A)
       (cont : Option A → PushdownAutomatonAction Γ Q),
      pda.input = Stack.fromArray xs →
      pda.transition pda.state pda.stack.head = .pop cont →
      (advanceOutcome pda).2 = cont xs.getLast?) := by
  constructor
  · rfl
  · intro pda cont hi hp
    simp [advanceOutcome, hp, hi, Stack.pop, Stack.fromArray]

/-- Witness for `c1_amended_thm` at the automaton of `c1_counterexample`. -/
theorem c1_amended_witness :
    ((construct 0 0 exT1).setInput [0, 1]).input = Stack.fromArray [0, 1] ∧
    ((construct 0 0 exT1).setInput [0, 1]).transition
        ((construct 0 0 exT1).setInput [0, 1]).state
        ((construct 0 0 exT1).setInput [0, 1]).stack.head = .pop contFirstAccept ∧
    (advanceOutcome ((construct 0 0 exT1).setInput [0, 1])).2 =
      contFirstAccept ([0, 1] : List Nat).getLast? :=
  ⟨rfl, rfl,
    (c1_amended_thm (construct 0 0 exT1) [0, 1]).2
      ((construct 0 0 exT1).setInput [0, 1]) contFirstAccept rfl rfl⟩

/-- Claim C2: with an empty control stack, a single step queries the
transition function with an absent (`none`) top-of-stack symbol — the
whole step outcome is determined by that one query — and the step does not
by itself resolve: the result field changes only if the action produced by
the transition function's output is a resolve action. -/
theorem c2_empty_stack_thm (pda : PushdownAutomaton Γ Q A)
    (h : pda.stack.stack = []) :
    pda.stack.head = none ∧
    advanceOutcome pda =
      (match pda.transition pda.state none with
       | .pop cont => ((pda.input.pop).2, cont (pda.input.pop).1)
       | .ignore c => (pda.input, c)) ∧
    (advance pda).result =
      (match (advanceOutcome pda).2 with
       | .resolve r => some r
       | .continue _ _ => pda.result) := by
  have hh : pda.stack.head = none := by simp [Stack.head, h]
  refine ⟨hh, ?_, ?_⟩
  · simp only [advanceOutcome, hh]
  · rcases hout : (advanceOutcome pda).2 with ⟨sa, st⟩ | r
    · rw [advance_of_continue pda sa st hout]
    · rw [advance_of_resolve pda r hout]

/-- Witness for `c2_empty_stack_thm`: an automaton whose control stack was
replaced by an empty stack. -/
theorem c2_empty_stack_witness :
    (replaceStack (construct 0 0 exT4) ⟨[]⟩).stack.stack = ([] : List Nat) ∧
    ((replaceStack (construct 0 0 exT4) ⟨[]⟩).stack.head = none ∧
     advanceOutcome (replaceStack (construct 0 0 exT4) ⟨[]⟩) =
       (match (replaceStack (construct 0 0 exT4) ⟨[]⟩).transition
           (replaceStack (construct 0 0 exT4) ⟨[]⟩).state none with
        | .pop cont => (((replaceStack (construct 0 0 exT4) ⟨[]⟩).input.pop).2,
            cont (((replaceStack (construct 0 0 exT4) ⟨[]⟩).input.pop).1))
        | .ignore c => ((replaceStack (construct 0 0 exT4) ⟨[]⟩).input, c)) ∧
     (advance (replaceStack (construct 0 0 exT4) ⟨[]⟩)).result =
       (match (advanceOutcome (replaceStack (construct 0 0 exT4) ⟨[]⟩)).2 with
        | .resolve r => some r
        | .continue _ _ => (replaceStack (construct 0 0 exT4) ⟨[]⟩).result)) :=
  ⟨rfl, c2_empty_stack_thm (replaceStack (construct 0 0 exT4) ⟨[]⟩) rfl⟩

/-- Claim C3 counterexample: element type `Option Nat` models the
TypeScript type `number | null` with `none` playing `null`.  The stack
`[null]` is non-empty with top `null`; applying `Pop{default: some 5}`
removes the top but returns the *default* `some 5`, not the top element
`null`, because the implementation computes `this.pop() ?? action.default`
and `??` replaces a `null` result by the default. -/
theorem c3_counterexample :
    (⟨[none]⟩ : Stack (Option Nat)).stack ≠ [] ∧
    (⟨[none]⟩ : Stack (Option Nat)).head = some none ∧
    (Stack.action Option.isNone (⟨[none]⟩ : Stack (Option Nat))
        (.pop (some 5))).1 = some (some 5) ∧
    (Stack.action Option.isNone (⟨[none]⟩ : Stack (Option Nat))
        (.pop (some 5))).2 = (⟨[]⟩ : Stack (Option Nat)) ∧
    (some (some 5) : Option (Option Nat)) ≠ some none := by
  decide

/-- Claim C3 (amended): `Pop{default: d}` on an empty stack returns `d`
and leaves the stack empty; on a non-empty stack it removes the top item
and returns it provided the top item is not a `null`/`undefined` value —
if the top item is nullish it is still removed, but `d` is returned in its
place. -/
theorem c3_amended_thm (nullish : T → Bool) (d : T) (s : Stack T) :
    (s.stack = [] → Stack.action nullish s (.pop d) = (some d, s)) ∧
    (∀ (t : T) (l : List T), s.stack = l ++ [t] →
      (Stack.action nullish s (.pop d)).2 = ⟨l⟩ ∧
      (Stack.action nullish s (.pop d)).1 =
        some (if nullish t then d else t)) := by
  obtain ⟨ls⟩ := s
  constructor
  · intro h
    simp only at h
    subst h
    simp [Stack.action, Stack.pop, Stack.delete]
  · intro t l h
    simp only at h
    subst h
    simp [Stack.action, Stack.pop, List.getLast?_concat, List.dropLast_concat]

/-- Witness for `c3_amended_thm` on the stack `[1, 2]` with default `7`. -/
theorem c3_amended_witness :
    ((⟨[1, 2]⟩ : Stack Nat).stack = [1] ++ [2]) ∧
    ((Stack.action (fun _ => false) (⟨[1, 2]⟩ : Stack Nat) (.pop 7)).2 =
        (⟨[1]⟩ : Stack Nat) ∧
     (Stack.action (fun _ => false) (⟨[1, 2]⟩ : Stack Nat) (.pop 7)).1 =
        some (if (fun _ => false) 2 then 7 else 2)) :=
  ⟨rfl, (c3_amended_thm (fun _ => false) 7 ⟨[1, 2]⟩).2 2 [1] rfl⟩

/-- Claim C4: whenever the step's resulting action is `Resolve{result}`,
the step records that result and leaves the control stack contents and the
current state exactly as they were. -/
theorem c4_resolve_frame_thm (pda : PushdownAutomaton Γ Q A) (r : Result)
    (h : (advanceOutcome pda).2 = .resolve r) :
    (advance pda).result = some r ∧
    (advance pda).stack = pda.stack ∧
    (advance pda).state = pda.state := by
  rw [advance_of_resolve pda r h]
  exact ⟨rfl, rfl, rfl⟩

/-- Witness for `c4_resolve_frame_thm`: `exT4` resolves immediately. -/
theorem c4_resolve_frame_witness :
    (advanceOutcome (construct 0 0 exT4)).2 =
        PushdownAutomatonAction.resolve Result.accept ∧
    ((advance (construct 0 0 exT4)).result = some Result.accept ∧
     (advance (construct 0 0 exT4)).stack = (construct 0 0 exT4).stack ∧
     (advance (construct 0 0 exT4)).state = (construct 0 0 exT4).state) :=
  ⟨rfl, c4_resolve_frame_thm (construct 0 0 exT4) Result.accept rfl⟩

/-- Claim C10: a step whose transition output is a pop input decision
removes one symbol from the (non-empty) input queue before the
continuation's action is inspected; if that action resolves, the consumed
symbol is not restored — the input queue is exactly one symbol shorter
while the control stack and state are unchanged. -/
theorem c10_pop_resolve_thm (pda : PushdownAutomaton Γ Q A)
    (cont : Option A → PushdownAutomatonAction Γ Q) (r : Result)
    (hpop : pda.transition pda.state pda.stack.head = .pop cont)
    (hres : cont pda.input.stack.getLast? = .resolve r)
    (hne : pda.input.stack ≠ []) :
    (advance pda).input.stack.length + 1 = pda.input.stack.length ∧
    (advance pda).input.stack = pda.input.stack.dropLast ∧
    (advance pda).stack = pda.stack ∧
    (advance pda).state = pda.state ∧
    (advance pda).result = some r := by
  have hout : advanceOutcome pda =
      (⟨pda.input.stack.dropLast⟩, cont pda.input.stack.getLast?) := by
    simp [advanceOutcome, hpop, Stack.pop]
  have hout2 : (advanceOutcome pda).2 = .resolve r := by rw [hout]; exact hres
  have hlen : pda.input.stack.length ≠ 0 := by
    simpa [List.length_eq_zero] using hne
  rw [advance_of_resolve pda r hout2]
  refine ⟨?_, ?_, rfl, rfl, rfl⟩
  · simp only [hout, List.length_dropLast]
    omega
  · simp only [hout]

/-- Witness for `c10_pop_resolve_thm`: `exT10` pops and resolves on input `[5]`. -/
theorem c10_pop_resolve_witness :
    ((construct 0 0 exT10).setInput [5]).transition
        ((construct 0 0 exT10).setInput [5]).state
        ((construct 0 0 exT10).setInput [5]).stack.head = .pop contReject ∧
    contReject (([5] : List Nat).getLast?) =
        PushdownAutomatonAction.resolve Result.reject ∧
    (([5] : List Nat) ≠ []) ∧
    ((advance ((construct 0 0 exT10).setInput [5])).input.stack.length + 1 =
        ((construct 0 0 exT10).setInput [5]).input.stack.length ∧
     (advance ((construct 0 0 exT10).setInput [5])).input.stack =
        ((construct 0 0 exT10).setInput [5]).input.stack.dropLast ∧
     (advance ((construct 0 0 exT10).setInput [5])).stack =
        ((construct 0 0 exT10).setInput [5]).stack ∧
     (advance ((construct 0 0 exT10).setInput [5])).state =
        ((construct 0 0 exT10).setInput [5]).state ∧
     (advance ((construct 0 0 exT10).setInput [5])).result = some Result.reject) :=
  ⟨rfl, rfl, by decide,
    c10_pop_resolve_thm ((construct 0 0 exT10).setInput [5]) contReject
      Result.reject rfl rfl (by decide)⟩

/-- Claim C6: after any sequence of prior operations on an automaton
constructed with `(s0, z0, t)`, `reset()` restores state `s0`, control
stack `[z0]`, absent result and empty input, while keeping whatever
transition function was stored immediately before the reset. -/
theorem c6_reset_thm (s0 : Q) (z0 : Γ) (t : TransitionFunction Γ Q A)
    (ops : List (Op Γ Q A)) :
    (reset (applyOps (construct s0 z0 t) ops)).state = s0 ∧
    (reset (applyOps (construct s0 z0 t) ops)).stack.stack = [z0] ∧
    (reset (applyOps (construct s0 z0 t) ops)).result = none ∧
    (reset (applyOps (construct s0 z0 t) ops)).input.stack = [] ∧
    (reset (applyOps (construct s0 z0 t) ops)).transition =
      (applyOps (construct s0 z0 t) ops).transition := by
  have h := applyOps_initialState (construct s0 z0 t) ops
  refine ⟨?_, ?_, rfl, rfl, rfl⟩
  · show (applyOps (construct s0 z0 t) ops).initialState.state = s0
    rw [h]
    rfl
  · show (Stack.push ⟨[]⟩
        (applyOps (construct s0 z0 t) ops).initialState.stackSymbol).stack = [z0]
    rw [h]
    rfl

/-- Claim C7 counterexample: with `exT7` (pop a symbol, accept exactly on
`some 1`) and input `[0, 1]`, the first step resolves `accept`; a second
step pops the remaining symbol `0` and overwrites the already-set result
with `reject` — the result is changed by a `step()` call without any
reset. -/
theorem c7_counterexample :
    ((construct 0 0 exT7).setInput [0, 1]).result = none ∧
    (advance ((construct 0 0 exT7).setInput [0, 1])).result = some Result.accept ∧
    (advance (advance ((construct 0 0 exT7).setInput [0, 1]))).result =
      some Result.reject ∧
    some Result.accept ≠ some Result.reject := by
  decide

/-- Claim C7 (amended): the result field is changed only by `reset()`
(which clears it to absent) or by a step whose action resolves (which sets
it to `accept`/`reject`).  In particular nothing but an explicit reset
returns it to absent; but `step()` does not guard on an already-set
result, so stepping past resolution may overwrite it (see
`c7_counterexample`): it is set at most once per run only if no further
step is taken after it is set. -/
theorem c7_amended_thm (pda : PushdownAutomaton Γ Q A) (op : Op Γ Q A)
    (h : (applyOp pda op).result ≠ pda.result) :
    (op = Op.reset ∧ (applyOp pda op).result = none) ∨
    (op = Op.advance ∧ ∃ r, (applyOp pda op).result = some r) := by
  cases op with
  | advance =>
      right
      refine ⟨rfl, ?_⟩
      rcases hout : (advanceOutcome pda).2 with ⟨sa, st⟩ | r
      · exfalso
        apply h
        show (advance pda).result = pda.result
        rw [advance_of_continue pda sa st hout]
      · refine ⟨r, ?_⟩
        show (advance pda).result = some r
        rw [advance_of_resolve pda r hout]
  | reset => exact Or.inl ⟨rfl, rfl⟩
  | setInput xs => exact absurd rfl h
  | overrideState s => exact absurd rfl h
  | overrideTransitionFunction t => exact absurd rfl h
  | replaceStack s => exact absurd rfl h
  | replaceInput s => exact absurd rfl h
  | runStackAction a => exact absurd rfl h
  | runInputAction a => exact absurd rfl h
  | appendInputArray xs => exact absurd rfl h

/-- Witness for `c7_amended_thm` at the first resolving step of the
`c7_counterexample` automaton. -/
theorem c7_amended_witness :
    (applyOp ((construct 0 0 exT7).setInput [0, 1]) Op.advance).result ≠
      ((construct 0 0 exT7).setInput [0, 1]).result ∧
    ((Op.advance = (Op.reset : Op Nat Nat Nat) ∧
        (applyOp ((construct 0 0 exT7).setInput [0, 1]) Op.advance).result = none) ∨
     (Op.advance = (Op.advance : Op Nat Nat Nat) ∧
        ∃ r, (applyOp ((construct 0 0 exT7).setInput [0, 1]) Op.advance).result =
          some r)) :=
  ⟨by decide,
    c7_amended_thm ((construct 0 0 exT7).setInput [0, 1]) Op.advance (by decide)⟩

lemma advance_stack_of_resolve (pda : PushdownAutomaton Γ Q A) (r : Result)
    (h : (advanceOutcome pda).2 = .resolve r) :
    (advance pda).stack = pda.stack := by
  rw [advance_of_resolve pda r h]

lemma advance_stack_of_delete (pda : PushdownAutomaton Γ Q A) (st : Q)
    (h : (advanceOutcome pda).2 = .continue .delete st) :
    (advance pda).stack.stack = pda.stack.stack.dropLast := by
  rw [advance_of_continue pda .delete st h]
  rfl

lemma advance_stack_of_push (pda : PushdownAutomaton Γ Q A) (i : Γ) (st : Q)
    (h : (advanceOutcome pda).2 = .continue (.push i) st) :
    (advance pda).stack.stack = pda.stack.stack ++ [i] := by
  rw [advance_of_continue pda (.push i) st h]
  rfl

lemma advance_stack_of_ignore (pda : PushdownAutomaton Γ Q A) (st : Q)
    (h : (advanceOutcome pda).2 = .continue .ignore st) :
    (advance pda).stack = pda.stack := by
  rw [advance_of_continue pda .ignore st h]
  rfl

/-- The control-stack size after `n` steps follows the fold of the applied
actions: `+1` per push, truncated `-1` per delete, provided no delete was
applied to an empty control stack. -/
lemma stack_length_int (pda : PushdownAutomaton Γ Q A) (n : Nat)
    (h : ∀ k, k < n →
      stepActs (advanceIter pda k) = [ContinueStackAction.delete] →
      (advanceIter pda k).stack.stack ≠ []) :
    ((advanceIter pda n).stack.stack.length : Int) =
      (pda.stack.stack.length : Int) +
        countPush (appliedActions pda n) - countDelete (appliedActions pda n) := by
  induction n with
  | zero => simp [advanceIter, appliedActions, countPush, countDelete]
  | succ m ih =>
      have ih' := ih (fun k hk => h k (Nat.lt_succ_of_lt hk))
      rw [advanceIter_succ, appliedActions_succ, countPush_append, countDelete_append]
      rcases hout : (advanceOutcome (advanceIter pda m)).2 with ⟨sa, st⟩ | r
      · have hacts : stepActs (advanceIter pda m) = [sa] := by
          simp [stepActs, hout]
        rw [hacts]
        cases sa with
        | delete =>
            have hne := h m (Nat.lt_succ_self m) hacts
            have hlen : (advanceIter pda m).stack.stack.length ≠ 0 := by
              simpa [List.length_eq_zero] using hne
            rw [advance_stack_of_delete (advanceIter pda m) st hout,
              List.length_dropLast]
            simp only [countPush, countDelete]
            omega
        | push i =>
            rw [advance_stack_of_push (advanceIter pda m) i st hout,
              List.length_append]
            simp only [countPush, countDelete, List.length_cons, List.length_nil]
            omega
        | ignore =>
            rw [advance_stack_of_ignore (advanceIter pda m) st hout]
            simp only [countPush, countDelete]
            omega
      · have hacts : stepActs (advanceIter pda m) = [] := by
          simp [stepActs, hout]
        rw [hacts, advance_stack_of_resolve (advanceIter pda m) r hout]
        simp only [countPush, countDelete]
        omega

/-- Claim C8 counterexample: `exT8` drives the action sequence delete,
delete, push from the freshly constructed automaton (initial stack size 1,
no `Clear` ever used).  After three steps the stack size is 1, while the
claimed formula `max 0 (1 + #Push − #Delete) = max 0 (1 + 1 − 2)` gives 0:
the second delete hit an empty stack and was a no-op, which the global
formula fails to account for. -/
theorem c8_counterexample :
    countPush (appliedActions ((construct 0 0 exT8).setInput []) 3) = 1 ∧
    countDelete (appliedActions ((construct 0 0 exT8).setInput []) 3) = 2 ∧
    (advanceIter ((construct 0 0 exT8).setInput []) 3).stack.stack.length = 1 ∧
    ((advanceIter ((construct 0 0 exT8).setInput []) 3).stack.stack.length : Int) ≠
      max 0 (1 + (countPush (appliedActions ((construct 0 0 exT8).setInput []) 3) : Int)
        - countDelete (appliedActions ((construct 0 0 exT8).setInput []) 3)) := by
  decide

/-- Claim C8 (amended): for transition functions restricted to
Push/Delete/Ignore (enforced by the type of continue actions), the control
stack's size after `n` steps from a freshly constructed automaton equals
`1 + #Push − #Delete` *provided no Delete was applied to an empty control
stack during those steps*; in general a Delete on an empty stack is a
no-op (not an error) and the size follows the stepwise-truncated fold of
`stack_length_int`. -/
theorem c8_amended_thm (s0 : Q) (z0 : Γ) (t : TransitionFunction Γ Q A)
    (xs : List A) (n : Nat)
    (h : ∀ k, k < n →
      stepActs (advanceIter ((construct s0 z0 t).setInput xs) k) =
        [ContinueStackAction.delete] →
      (advanceIter ((construct s0 z0 t).setInput xs) k).stack.stack ≠ []) :
    ((advanceIter ((construct s0 z0 t).setInput xs) n).stack.stack.length : Int) =
      1 + countPush (appliedActions ((construct s0 z0 t).setInput xs) n)
        - countDelete (appliedActions ((construct s0 z0 t).setInput xs) n) := by
  have hbase := stack_length_int ((construct s0 z0 t).setInput xs) n h
  simpa [construct, setInput, Stack.push] using hbase

/-- Witness for `c8_amended_thm`: `exT8w` pushes then deletes (sizes
1 → 2 → 1) with no delete on an empty stack. -/
theorem c8_amended_witness :
    (∀ k, k < 2 →
      stepActs (advanceIter ((construct 0 0 exT8w).setInput []) k) =
        [ContinueStackAction.delete] →
      (advanceIter ((construct 0 0 exT8w).setInput []) k).stack.stack ≠ []) ∧
    ((advanceIter ((construct 0 0 exT8w).setInput []) 2).stack.stack.length : Int) =
      1 + countPush (appliedActions ((construct 0 0 exT8w).setInput []) 2)
        - countDelete (appliedActions ((construct 0 0 exT8w).setInput []) 2) :=
  ⟨by decide, c8_amended_thm 0 0 exT8w [] 2 (by decide)⟩

end TsPda

namespace TsPdaStore

lemma read_write_self (st : Store T) (r : Nat) (xs : List T)
    (h : r < st.cells.length) : (st.write r xs).read r = xs :=
  getD_set_self st.cells r xs [] h

lemma read_write_other (st : Store T) (r r' : Nat) (xs : List T)
    (h : r ≠ r') : (st.write r xs).read r' = st.read r' :=
  getD_set_other st.cells r r' xs [] h

/-- Claim C5 counterexample: the caller's array `[7]` lives at reference 0;
`input()` makes the automaton's input queue wrap that very reference
(`Stack.fromArray` does not copy), so a subsequent caller-side
`arr.push(8)` — a write of `[7, 8]` to reference 0 — changes the contents
read through the automaton's input queue from `[7]` to `[7, 8]`. -/
theorem c5_counterexample :
    (inputRefOp ⟨1, 2⟩ 0).inputRef = 0 ∧
    (⟨[[7]]⟩ : Store Nat).read 0 = [7] ∧
    ((⟨[[7]]⟩ : Store Nat).write 0 [7, 8]).read (inputRefOp ⟨1, 2⟩ 0).inputRef =
      [7, 8] ∧
    ([7, 8] : List Nat) ≠ [7] := by
  decide

/-- Claim C5 (amended): the automaton owns its stacks *except* for the
array passed to the input-setting operation: `input()` stores the caller's
array by reference, so mutating that array after the call does change the
input queue (every caller-side write to the array is visible through the
automaton's input reference). -/
theorem c5_amended_thm (st : Store T) (p : PdaRefs) (a : Nat) (ys : List T)
    (h : a < st.cells.length) :
    (inputRefOp p a).inputRef = a ∧
    (st.write a ys).read (inputRefOp p a).inputRef = ys := by
  refine ⟨rfl, ?_⟩
  show (st.write a ys).read a = ys
  exact read_write_self st a ys h

/-- Witness for `c5_amended_thm` at the store of `c5_counterexample`. -/
theorem c5_amended_witness :
    (0 < (⟨[[7]]⟩ : Store Nat).cells.length) ∧
    ((inputRefOp ⟨1, 2⟩ 0).inputRef = 0 ∧
     ((⟨[[7]]⟩ : Store Nat).write 0 [7, 8]).read (inputRefOp ⟨1, 2⟩ 0).inputRef =
       [7, 8]) :=
  ⟨by decide, c5_amended_thm (⟨[[7]]⟩ : Store Nat) ⟨1, 2⟩ 0 [7, 8] (by decide)⟩

lemma copy_twice_spec (st : Store T) (r : Nat) (h : r < st.cells.length) :
    ((copyRef (copyRef st ⟨r⟩).2 ⟨r⟩).2.read (copyRef st ⟨r⟩).1.ref =
       (copyRef (copyRef st ⟨r⟩).2 ⟨r⟩).2.read (copyRef (copyRef st ⟨r⟩).2 ⟨r⟩).1.ref) ∧
    ((copyRef st ⟨r⟩).1.ref ≠ (copyRef (copyRef st ⟨r⟩).2 ⟨r⟩).1.ref) ∧
    ((copyRef st ⟨r⟩).1.ref ≠ r) ∧
    ((copyRef (copyRef st ⟨r⟩).2 ⟨r⟩).1.ref ≠ r) ∧
    (∀ xs : List T,
      (((copyRef (copyRef st ⟨r⟩).2 ⟨r⟩).2.write (copyRef st ⟨r⟩).1.ref xs).read
          (copyRef (copyRef st ⟨r⟩).2 ⟨r⟩).1.ref =
        (copyRef (copyRef st ⟨r⟩).2 ⟨r⟩).2.read (copyRef (copyRef st ⟨r⟩).2 ⟨r⟩).1.ref) ∧
      (((copyRef (copyRef st ⟨r⟩).2 ⟨r⟩).2.write (copyRef st ⟨r⟩).1.ref xs).read r =
        (copyRef (copyRef st ⟨r⟩).2 ⟨r⟩).2.read r)) ∧
    (∀ xs : List T,
      (((copyRef (copyRef st ⟨r⟩).2 ⟨r⟩).2.write (copyRef (copyRef st ⟨r⟩).2 ⟨r⟩).1.ref xs).read
          (copyRef st ⟨r⟩).1.ref =
        (copyRef (copyRef st ⟨r⟩).2 ⟨r⟩).2.read (copyRef st ⟨r⟩).1.ref) ∧
      (((copyRef (copyRef st ⟨r⟩).2 ⟨r⟩).2.write (copyRef (copyRef st ⟨r⟩).2 ⟨r⟩).1.ref xs).read r =
        (copyRef (copyRef st ⟨r⟩).2 ⟨r⟩).2.read r)) ∧
    (∀ xs : List T,
      (((copyRef (copyRef st ⟨r⟩).2 ⟨r⟩).2.write r xs).read (copyRef st ⟨r⟩).1.ref =
        (copyRef (copyRef st ⟨r⟩).2 ⟨r⟩).2.read (copyRef st ⟨r⟩).1.ref) ∧
      (((copyRef (copyRef st ⟨r⟩).2 ⟨r⟩).2.write r xs).read (copyRef (copyRef st ⟨r⟩).2 ⟨r⟩).1.ref =
        (copyRef (copyRef st ⟨r⟩).2 ⟨r⟩).2.read (copyRef (copyRef st ⟨r⟩).2 ⟨r⟩).1.ref)) := by
  have h1 : (copyRef st ⟨r⟩).1.ref = st.cells.length := rfl
  have hc1 : (copyRef st ⟨r⟩).2.cells = st.cells ++ [st.read r] := rfl
  have h2 : (copyRef (copyRef st ⟨r⟩).2 ⟨r⟩).1.ref = st.cells.length + 1 := by
    show (copyRef st ⟨r⟩).2.cells.length = st.cells.length + 1
    rw [hc1]
    simp
  have hc2 : (copyRef (copyRef st ⟨r⟩).2 ⟨r⟩).2.cells =
      (st.cells ++ [st.read r]) ++ [(copyRef st ⟨r⟩).2.read r] := rfl
  have hb : (copyRef st ⟨r⟩).2.read r = st.read r := by
    unfold Store.read
    rw [hc1]
    exact getD_append_left _ _ _ _ h
  have hreadc1 : (copyRef (copyRef st ⟨r⟩).2 ⟨r⟩).2.read (copyRef st ⟨r⟩).1.ref =
      st.read r := by
    unfold Store.read
    rw [hc2, h1]
    rw [getD_append_left _ _ _ _ (by simp)]
    exact getD_append_length _ _ _
  have hreadc2 : (copyRef (copyRef st ⟨r⟩).2 ⟨r⟩).2.read
      (copyRef (copyRef st ⟨r⟩).2 ⟨r⟩).1.ref = st.read r := by
    unfold Store.read
    rw [hc2, h2]
    have hlen : st.cells.length + 1 = (st.cells ++ [st.read r]).length := by simp
    rw [hlen, getD_append_length]
    exact hb
  refine ⟨by rw [hreadc1, hreadc2], ?_, ?_, ?_, ?_, ?_, ?_⟩
  · rw [h1, h2]
    omega
  · rw [h1]
    omega
  · rw [h2]
    omega
  · intro xs
    refine ⟨?_, ?_⟩
    · exact read_write_other _ _ _ _ (by rw [h1, h2]; omega)
    · exact read_write_other _ _ _ _ (by rw [h1]; omega)
  · intro xs
    refine ⟨?_, ?_⟩
    · exact read_write_other _ _ _ _ (by rw [h1, h2]; omega)
    · exact read_write_other _ _ _ _ (by rw [h2]; omega)
  · intro xs
    refine ⟨?_, ?_⟩
    · exact read_write_other _ _ _ _ (by rw [h1]; omega)
    · exact read_write_other _ _ _ _ (by rw [h2]; omega)

/-- Claim C9: `copyStack()` (resp. `copyRemainingInput()`) called twice
with no intervening mutation yields two structurally equal copies held at
fresh references: the copies read equal, are distinct from each other and
from the live stack, mutating either copy changes neither the live stack
nor the other copy, and mutating the live stack changes neither copy. -/
theorem c9_copy_independent_thm (st : Store T) (p : PdaRefs)
    (hs : p.stackRef < st.cells.length) (hi : p.inputRef < st.cells.length) :
    (((copyStackRef (copyStackRef st p).2 p).2.read (copyStackRef st p).1.ref =
        (copyStackRef (copyStackRef st p).2 p).2.read
          (copyStackRef (copyStackRef st p).2 p).1.ref) ∧
     ((copyStackRef st p).1.ref ≠ (copyStackRef (copyStackRef st p).2 p).1.ref) ∧
     ((copyStackRef st p).1.ref ≠ p.stackRef) ∧
     ((copyStackRef (copyStackRef st p).2 p).1.ref ≠ p.stackRef) ∧
     (∀ xs : List T,
       (((copyStackRef (copyStackRef st p).2 p).2.write (copyStackRef st p).1.ref xs).read
           (copyStackRef (copyStackRef st p).2 p).1.ref =
         (copyStackRef (copyStackRef st p).2 p).2.read
           (copyStackRef (copyStackRef st p).2 p).1.ref) ∧
       (((copyStackRef (copyStackRef st p).2 p).2.write (copyStackRef st p).1.ref xs).read
           p.stackRef =
         (copyStackRef (copyStackRef st p).2 p).2.read p.stackRef)) ∧
     (∀ xs : List T,
       (((copyStackRef (copyStackRef st p).2 p).2.write
             (copyStackRef (copyStackRef st p).2 p).1.ref xs).read
           (copyStackRef st p).1.ref =
         (copyStackRef (copyStackRef st p).2 p).2.read (copyStackRef st p).1.ref) ∧
       (((copyStackRef (copyStackRef st p).2 p).2.write
             (copyStackRef (copyStackRef st p).2 p).1.ref xs).read p.stackRef =
         (copyStackRef (copyStackRef st p).2 p).2.read p.stackRef)) ∧
     (∀ xs : List T,
       (((copyStackRef (copyStackRef st p).2 p).2.write p.stackRef xs).read
           (copyStackRef st p).1.ref =
         (copyStackRef (copyStackRef st p).2 p).2.read (copyStackRef st p).1.ref) ∧
       (((copyStackRef (copyStackRef st p).2 p).2.write p.stackRef xs).read
           (copyStackRef (copyStackRef st p).2 p).1.ref =
         (copyStackRef (copyStackRef st p).2 p).2.read
           (copyStackRef (copyStackRef st p).2 p).1.ref))) ∧
    (((copyRemainingInputRef (copyRemainingInputRef st p).2 p).2.read
          (copyRemainingInputRef st p).1.ref =
        (copyRemainingInputRef (copyRemainingInputRef st p).2 p).2.read
          (copyRemainingInputRef (copyRemainingInputRef st p).2 p).1.ref) ∧
     ((copyRemainingInputRef st p).1.ref ≠
        (copyRemainingInputRef (copyRemainingInputRef st p).2 p).1.ref) ∧
     ((copyRemainingInputRef st p).1.ref ≠ p.inputRef) ∧
     ((copyRemainingInputRef (copyRemainingInputRef st p).2 p).1.ref ≠ p.inputRef) ∧
     (∀ xs : List T,
       (((copyRemainingInputRef (copyRemainingInputRef st p).2 p).2.write
             (copyRemainingInputRef st p).1.ref xs).read
           (copyRemainingInputRef (copyRemainingInputRef st p).2 p).1.ref =
         (copyRemainingInputRef (copyRemainingInputRef st p).2 p).2.read
           (copyRemainingInputRef (copyRemainingInputRef st p).2 p).1.ref) ∧
       (((copyRemainingInputRef (copyRemainingInputRef st p).2 p).2.write
             (copyRemainingInputRef st p).1.ref xs).read p.inputRef =
         (copyRemainingInputRef (copyRemainingInputRef st p).2 p).2.read p.inputRef)) ∧
     (∀ xs : List T,
       (((copyRemainingInputRef (copyRemainingInputRef st p).2 p).2.write
             (copyRemainingInputRef (copyRemainingInputRef st p).2 p).1.ref xs).read
           (copyRemainingInputRef st p).1.ref =
         (copyRemainingInputRef (copyRemainingInputRef st p).2 p).2.read
           (copyRemainingInputRef st p).1.ref) ∧
       (((copyRemainingInputRef (copyRemainingInputRef st p).2 p).2.write
             (copyRemainingInputRef (copyRemainingInputRef st p).2 p).1.ref xs).read
           p.inputRef =
         (copyRemainingInputRef (copyRemainingInputRef st p).2 p).2.read p.inputRef)) ∧
     (∀ xs : List T,
       (((copyRemainingInputRef (copyRemainingInputRef st p).2 p).2.write
             p.inputRef xs).read (copyRemainingInputRef st p).1.ref =
         (copyRemainingInputRef (copyRemainingInputRef st p).2 p).2.read
           (copyRemainingInputRef st p).1.ref) ∧
       (((copyRemainingInputRef (copyRemainingInputRef st p).2 p).2.write
             p.inputRef xs).read
           (copyRemainingInputRef (copyRemainingInputRef st p).2 p).1.ref =
         (copyRemainingInputRef (copyRemainingInputRef st p).2 p).2.read
           (copyRemainingInputRef (copyRemainingInputRef st p).2 p).1.ref))) :=
  ⟨copy_twice_spec st p.stackRef hs, copy_twice_spec st p.inputRef hi⟩

/-- Witness for `c9_copy_independent_thm`: a store with the automaton's
two arrays `[1]` and `[2]` at references 0 and 1. -/
theorem c9_copy_independent_witness :
    ((0 : Nat) < (⟨[[1], [2]]⟩ : Store Nat).cells.length ∧
     (1 : Nat) < (⟨[[1], [2]]⟩ : Store Nat).cells.length) ∧
    ((copyStackRef (copyStackRef (⟨[[1], [2]]⟩ : Store Nat) ⟨0, 1⟩).2 ⟨0, 1⟩).2.read
        (copyStackRef (⟨[[1], [2]]⟩ : Store Nat) ⟨0, 1⟩).1.ref =
      (copyStackRef (copyStackRef (⟨[[1], [2]]⟩ : Store Nat) ⟨0, 1⟩).2 ⟨0, 1⟩).2.read
        (copyStackRef (copyStackRef (⟨[[1], [2]]⟩ : Store Nat) ⟨0, 1⟩).2 ⟨0, 1⟩).1.ref) :=
  ⟨⟨by decide, by decide⟩,
    (c9_copy_independent_thm (⟨[[1], [2]]⟩ : Store Nat) ⟨0, 1⟩ (by decide) (by decide)).1.1⟩

end TsPdaStore
